import Mathlib

/-!
Verification of the trajectory scheduling / interpolation model of
`src/src/linear_human.py` (class `LinearHuman`).

The embedding uses exact rational arithmetic (`ℚ`) for all real-valued
quantities.  Notes on faithfulness to the Python source:

* `int(x)` in Python truncates toward zero; all elapsed times considered
  here are nonnegative, where truncation coincides with the floor, so the
  segment index is embedded as `(⌊t / step_time⌋).toNat`.
* Python raises `IndexError` on an out-of-range (nonnegative) list index
  and `ZeroDivisionError` on division by zero; the embedding returns
  `none` for an out-of-range index and proves separately that the
  interpolation divisor is the positive `step_time`, so the `0` value of
  rational division-by-zero is never reached on the claims' domains.
-/

/-- Trajectory configuration of one simulated human: the real-world start
point and goal list loaded in `load_parameters` (lines 67-68). -/
structure Schedule where
  real_start : ℚ × ℚ
  real_goals : List (ℚ × ℚ)

/-- Line 74: `self.final_T = 60.0`, the hard-coded total duration. -/
def final_T : ℚ := 60

/-- Line 75 with the duration and goal count abstracted:
`step_time = final_T / (len(real_goals) + 1)`. -/
def step_time_of (T : ℚ) (n : ℕ) : ℚ := T / ((n : ℚ) + 1)

/-- Line 76 with the duration and goal count abstracted:
`waypt_times = [i * step_time for i in range(len(real_goals) + 2)]`. -/
def waypt_times_of (T : ℚ) (n : ℕ) : List ℚ :=
  (List.range (n + 2)).map fun i : ℕ => (i : ℚ) * step_time_of T n

/-- Line 75 as executed: `self.step_time = self.final_T/(len(self.real_goals)+1)`. -/
def step_time (sch : Schedule) : ℚ := step_time_of final_T sch.real_goals.length

/-- Line 76 as executed: the boundary table stored on the object. -/
def waypt_times (sch : Schedule) : List ℚ := waypt_times_of final_T sch.real_goals.length

/-- Line 164: `waypts = [self.real_start] + self.real_goals + [self.real_start]`. -/
def waypts (sch : Schedule) : List (ℚ × ℚ) :=
  sch.real_start :: (sch.real_goals ++ [sch.real_start])

/-- Line 168: `curr_waypt_idx = int(curr_time/self.step_time)` (truncation
equals floor for the nonnegative times of interest). -/
def curr_waypt_idx (sch : Schedule) (t : ℚ) : ℕ := (⌊t / step_time sch⌋).toNat

/-- Lines 165-173 of `update_pose`: the target position as a function of
the schedule and the elapsed time (`target_pos`).  `none` models a Python
`IndexError` on a waypoint / boundary-table access. -/
def positionAt (sch : Schedule) (t : ℚ) : Option (ℚ × ℚ) :=
  if final_T ≤ t then
    some sch.real_start
  else
    match (waypts sch)[curr_waypt_idx sch t]?, (waypts sch)[curr_waypt_idx sch t + 1]?,
          (waypt_times sch)[curr_waypt_idx sch t]?, (waypt_times sch)[curr_waypt_idx sch t + 1]? with
    | some p0, some p1, some ti, some tf =>
        some ((p1.1 - p0.1) * ((t - ti) / (tf - ti)) + p0.1,
              (p1.2 - p0.2) * ((t - ti) / (tf - ti)) + p0.2)
    | _, _, _, _ => none

/-- Mutable state of the simulator object touched by `update_pose`:
`self.prev_pose` (line 91 / 176) and `self.human_pose` (line 77 / 178-185,
kept as the (x, y) position; `None` before the first tick). -/
structure HState where
  prev_pose : ℚ × ℚ
  human_pose : Option (ℚ × ℚ)

/-- State after `load_parameters`: `self.prev_pose = self.real_start`
(line 91) and `self.human_pose = None` (line 77). -/
def initState (sch : Schedule) : HState := ⟨sch.real_start, none⟩

/-- Lines 157-185, `update_pose(curr_time)` as a state transition:
`prev_pose` is reassigned to `target_pos` only inside the `else` branch
(line 176), while `human_pose` is rebuilt from `target_pos` in both
branches (lines 178-185). -/
def update_pose (sch : Schedule) (s : HState) (t : ℚ) : Option HState :=
  match positionAt sch t with
  | none => none
  | some p => some ⟨if final_T ≤ t then s.prev_pose else p, some p⟩

/-- Python 2 `round`: round half away from zero. -/
def pyRound (q : ℚ) : ℤ := if 0 ≤ q then ⌊q + 1/2⌋ else ⌈q - 1/2⌉

/-- Coordinate-mapper configuration: real-world corners (lines 57-64) and
the simulation grid dimensions (lines 82-83). -/
structure Mapper where
  real_lower : ℚ × ℚ
  real_upper : ℚ × ℚ
  sim_width : ℕ
  sim_height : ℕ

/-- Line 86: `res_x = real_width/(sim_width-1)` with
`real_width = up[0] - low[0]` (line 62). -/
def res_x (m : Mapper) : ℚ := (m.real_upper.1 - m.real_lower.1) / ((m.sim_width : ℚ) - 1)

/-- Line 87: `res_y = real_height/(sim_height-1)` with
`real_height = up[1] - low[1]` (line 61). -/
def res_y (m : Mapper) : ℚ := (m.real_upper.2 - m.real_lower.2) / ((m.sim_height : ℚ) - 1)

/-- Lines 187-193, `sim_to_real_coord`. -/
def sim_to_real_coord (m : Mapper) (c : ℤ × ℤ) : ℚ × ℚ :=
  ((c.1 : ℚ) * res_x m + m.real_lower.1,
   m.real_upper.2 - (c.2 : ℚ) * res_y m)

/-- Lines 195-201, `real_to_sim_coord`. -/
def real_to_sim_coord (m : Mapper) (p : ℚ × ℚ) : ℤ × ℤ :=
  (pyRound ((p.1 - m.real_lower.1) / res_x m),
   pyRound ((m.real_upper.2 - p.2) / res_y m))

lemma step_time_of_pos (T : ℚ) (n : ℕ) (hT : 0 < T) : 0 < step_time_of T n :=
  div_pos hT (by positivity)

lemma step_time_pos (sch : Schedule) : 0 < step_time sch :=
  step_time_of_pos _ _ (by norm_num [final_T])

lemma length_waypts (sch : Schedule) : (waypts sch).length = sch.real_goals.length + 2 := by
  simp [waypts]

lemma length_waypt_times_of (T : ℚ) (n : ℕ) : (waypt_times_of T n).length = n + 2 := by
  rw [waypt_times_of, List.length_map, List.length_range]

lemma waypt_times_of_getElem (T : ℚ) (n i : ℕ) (h : i < n + 2) :
    (waypt_times_of T n)[i]? = some ((i : ℚ) * step_time_of T n) := by
  rw [waypt_times_of, List.getElem?_map, List.getElem?_range h]
  rfl

lemma waypt_times_getElem (sch : Schedule) (i : ℕ) (h : i < sch.real_goals.length + 2) :
    (waypt_times sch)[i]? = some ((i : ℚ) * step_time sch) :=
  waypt_times_of_getElem _ _ _ h

lemma waypts_getElem_zero (sch : Schedule) : (waypts sch)[0]? = some sch.real_start := by
  simp [waypts]

lemma waypts_getElem_last (sch : Schedule) :
    (waypts sch)[sch.real_goals.length + 1]? = some sch.real_start := by
  rw [waypts, List.getElem?_cons_succ, List.getElem?_concat_length]

lemma final_T_eq (sch : Schedule) :
    final_T = ((sch.real_goals.length : ℚ) + 1) * step_time sch := by
  have h : ((sch.real_goals.length : ℚ) + 1) ≠ 0 := by positivity
  rw [step_time, step_time_of, mul_comm, div_mul_cancel₀ _ h]

lemma curr_waypt_idx_natCast_mul (sch : Schedule) (i : ℕ) :
    curr_waypt_idx sch ((i : ℚ) * step_time sch) = i := by
  have hs : step_time sch ≠ 0 := ne_of_gt (step_time_pos sch)
  unfold curr_waypt_idx
  rw [mul_div_cancel_right₀ _ hs, Int.floor_natCast, Int.toNat_natCast]

lemma curr_waypt_idx_le (sch : Schedule) (t : ℚ) (h1 : t < final_T) :
    curr_waypt_idx sch t ≤ sch.real_goals.length := by
  have hs := step_time_pos sch
  have h2 : t / step_time sch < (sch.real_goals.length : ℚ) + 1 := by
    rw [div_lt_iff₀ hs]
    calc t < final_T := h1
      _ = ((sch.real_goals.length : ℚ) + 1) * step_time sch := final_T_eq sch
  have h3 : ⌊t / step_time sch⌋ < (sch.real_goals.length : ℤ) + 1 := by
    rw [Int.floor_lt]; push_cast; exact h2
  unfold curr_waypt_idx
  omega

lemma curr_waypt_idx_cast (sch : Schedule) (t : ℚ) (h0 : 0 ≤ t) :
    (curr_waypt_idx sch t : ℤ) = ⌊t / step_time sch⌋ := by
  unfold curr_waypt_idx
  have : (0:ℤ) ≤ ⌊t / step_time sch⌋ :=
    Int.floor_nonneg.mpr (div_nonneg h0 (le_of_lt (step_time_pos sch)))
  omega

lemma positionAt_of_lt (sch : Schedule) (t : ℚ) (h1 : ¬ final_T ≤ t)
    {p0 p1 : ℚ × ℚ} {ti tf : ℚ}
    (hp0 : (waypts sch)[curr_waypt_idx sch t]? = some p0)
    (hp1 : (waypts sch)[curr_waypt_idx sch t + 1]? = some p1)
    (hti : (waypt_times sch)[curr_waypt_idx sch t]? = some ti)
    (htf : (waypt_times sch)[curr_waypt_idx sch t + 1]? = some tf) :
    positionAt sch t = some ((p1.1 - p0.1) * ((t - ti) / (tf - ti)) + p0.1,
      (p1.2 - p0.2) * ((t - ti) / (tf - ti)) + p0.2) := by
  simp only [positionAt]
  rw [if_neg h1, hp0, hp1, hti, htf]

lemma length_waypt_times (sch : Schedule) :
    (waypt_times sch).length = sch.real_goals.length + 2 :=
  length_waypt_times_of _ _

/-- Claim C1: for every schedule (any start, any goal list; the total
duration is the hard-coded 60), the target position at elapsed time 0 is
the start waypoint, and for every elapsed time `t ≥ final_T` the target
position is exactly the start waypoint (terminal steady state). -/
theorem C1_position_zero_and_terminal (s : ℚ × ℚ) (goals : List (ℚ × ℚ)) :
    positionAt ⟨s, goals⟩ 0 = some s ∧
      ∀ t : ℚ, final_T ≤ t → positionAt ⟨s, goals⟩ t = some s := by
  constructor
  · have h1 : ¬ final_T ≤ (0:ℚ) := by norm_num [final_T]
    have hk : curr_waypt_idx ⟨s, goals⟩ 0 = 0 := by
      have h := curr_waypt_idx_natCast_mul ⟨s, goals⟩ 0
      simpa using h
    have hp0 : (waypts ⟨s, goals⟩)[curr_waypt_idx ⟨s, goals⟩ 0]? = some s := by
      rw [hk]; exact waypts_getElem_zero _
    obtain ⟨p1, hp1⟩ : ∃ p1, (waypts ⟨s, goals⟩)[curr_waypt_idx ⟨s, goals⟩ 0 + 1]? = some p1 := by
      rw [hk]
      exact ⟨_, List.getElem?_eq_getElem (by rw [length_waypts]; omega)⟩
    have hti : (waypt_times ⟨s, goals⟩)[curr_waypt_idx ⟨s, goals⟩ 0]? =
        some (((0:ℕ) : ℚ) * step_time ⟨s, goals⟩) := by
      rw [hk]; exact waypt_times_getElem _ 0 (by omega)
    have htf : (waypt_times ⟨s, goals⟩)[curr_waypt_idx ⟨s, goals⟩ 0 + 1]? =
        some (((1:ℕ) : ℚ) * step_time ⟨s, goals⟩) := by
      rw [hk]; exact waypt_times_getElem _ 1 (by omega)
    rw [positionAt_of_lt _ _ h1 hp0 hp1 hti htf]
    norm_num
  · intro t ht
    simp only [positionAt]
    rw [if_pos ht]

/-- Witness for C1 at a concrete schedule and a concrete time past the
total duration. -/
theorem C1_witness :
    positionAt ⟨(0,0), [(1,1)]⟩ 0 = some (0,0) ∧
      positionAt ⟨(0,0), [(1,1)]⟩ 70 = some (0,0) :=
  ⟨(C1_position_zero_and_terminal (0,0) [(1,1)]).1,
   (C1_position_zero_and_terminal (0,0) [(1,1)]).2 70 (by norm_num [final_T])⟩

/-- Claim C2: for every schedule, the target position at boundary
timestamp `t_i` of the boundary table equals waypoint `i` of the closed
waypoint sequence, for every `i` in range (exact rational arithmetic). -/
theorem C2_boundary_hits_waypoint (sch : Schedule) (i : ℕ) (ti : ℚ) (wi : ℚ × ℚ)
    (hti : (waypt_times sch)[i]? = some ti)
    (hwi : (waypts sch)[i]? = some wi) :
    positionAt sch ti = some wi := by
  have hi : i < sch.real_goals.length + 2 := by
    by_contra hno
    have hlen : (waypt_times sch).length ≤ i := by rw [length_waypt_times]; omega
    rw [List.getElem?_eq_none hlen] at hti
    simp at hti
  rw [waypt_times_getElem _ i hi] at hti
  have hti_eq : ti = (i : ℚ) * step_time sch := (Option.some_inj.mp hti).symm
  subst hti_eq
  have hstep := step_time_pos sch
  rcases Nat.lt_or_ge i (sch.real_goals.length + 1) with hlt | hge
  · have hlt' : (i : ℚ) * step_time sch < final_T := by
      rw [final_T_eq sch]
      apply mul_lt_mul_of_pos_right _ hstep
      have : (i : ℚ) < ((sch.real_goals.length : ℚ) + 1) := by exact_mod_cast hlt
      exact this
    have h1 : ¬ final_T ≤ (i : ℚ) * step_time sch := not_le.mpr hlt'
    have hk : curr_waypt_idx sch ((i : ℚ) * step_time sch) = i :=
      curr_waypt_idx_natCast_mul sch i
    obtain ⟨p1, hp1⟩ : ∃ p1, (waypts sch)[i + 1]? = some p1 :=
      ⟨_, List.getElem?_eq_getElem (by rw [length_waypts]; omega)⟩
    rw [positionAt_of_lt _ _ h1 (by rw [hk]; exact hwi) (by rw [hk]; exact hp1)
      (by rw [hk]; exact waypt_times_getElem _ i hi)
      (by rw [hk]; exact waypt_times_getElem _ (i+1) (by omega))]
    simp
  · have hie : i = sch.real_goals.length + 1 := by omega
    subst hie
    have hT : ((sch.real_goals.length + 1 : ℕ) : ℚ) * step_time sch = final_T := by
      rw [final_T_eq sch]; push_cast; ring
    rw [hT]
    have hw : wi = sch.real_start := by
      rw [waypts_getElem_last] at hwi
      exact (Option.some_inj.mp hwi).symm
    subst hw
    simp only [positionAt]
    rw [if_pos le_rfl]

/-- Witness for C2: in the one-goal scenario the second boundary
timestamp (30) maps exactly onto the goal waypoint. -/
theorem C2_witness : positionAt ⟨(0,0), [(10,0)]⟩ 30 = some (10,0) :=
  C2_boundary_hits_waypoint ⟨(0,0), [(10,0)]⟩ 1 30 (10,0)
    (by simp [waypt_times, waypt_times_of, step_time, step_time_of, final_T, List.range_succ]
        norm_num)
    (by simp [waypts])

/-- Claim C3: on the interpolation branch (`0 ≤ t < final_T`) the active
segment index is `⌊t / step_time⌋`, the accessed waypoints are entries `k`
and `k+1`, the accessed boundary entries are `k * step_time` and
`(k+1) * step_time`, and the result is `p0 + f * (p1 - p0)` per axis with
`f = (t - t0) / (t1 - t0)`. -/
theorem C3_segment_interpolation (sch : Schedule) (t : ℚ) (h0 : 0 ≤ t) (h1 : t < final_T) :
    (curr_waypt_idx sch t : ℤ) = ⌊t / step_time sch⌋ ∧
    ∃ p0 p1, (waypts sch)[curr_waypt_idx sch t]? = some p0 ∧
      (waypts sch)[curr_waypt_idx sch t + 1]? = some p1 ∧
      (waypt_times sch)[curr_waypt_idx sch t]? =
        some ((curr_waypt_idx sch t : ℚ) * step_time sch) ∧
      (waypt_times sch)[curr_waypt_idx sch t + 1]? =
        some (((curr_waypt_idx sch t : ℚ) + 1) * step_time sch) ∧
      positionAt sch t = some
        (p0.1 + (t - (curr_waypt_idx sch t : ℚ) * step_time sch) /
            (((curr_waypt_idx sch t : ℚ) + 1) * step_time sch -
              (curr_waypt_idx sch t : ℚ) * step_time sch) * (p1.1 - p0.1),
         p0.2 + (t - (curr_waypt_idx sch t : ℚ) * step_time sch) /
            (((curr_waypt_idx sch t : ℚ) + 1) * step_time sch -
              (curr_waypt_idx sch t : ℚ) * step_time sch) * (p1.2 - p0.2)) := by
  refine ⟨curr_waypt_idx_cast sch t h0, ?_⟩
  have hk := curr_waypt_idx_le sch t h1
  obtain ⟨p0, hp0⟩ : ∃ p0, (waypts sch)[curr_waypt_idx sch t]? = some p0 :=
    ⟨_, List.getElem?_eq_getElem (by rw [length_waypts]; omega)⟩
  obtain ⟨p1, hp1⟩ : ∃ p1, (waypts sch)[curr_waypt_idx sch t + 1]? = some p1 :=
    ⟨_, List.getElem?_eq_getElem (by rw [length_waypts]; omega)⟩
  have hti := waypt_times_getElem sch (curr_waypt_idx sch t) (by omega)
  have htf := waypt_times_getElem sch (curr_waypt_idx sch t + 1) (by omega)
  have hcast : ((curr_waypt_idx sch t + 1 : ℕ) : ℚ) = (curr_waypt_idx sch t : ℚ) + 1 := by
    push_cast; ring
  rw [hcast] at htf
  refine ⟨p0, p1, hp0, hp1, hti, htf, ?_⟩
  rw [positionAt_of_lt _ _ (not_le.mpr h1) hp0 hp1 hti htf]
  simp only [Option.some_inj, Prod.mk.injEq]
  constructor <;> ring

/-- Witness for C3 at the one-goal scenario, elapsed time 10. -/
theorem C3_witness :
    (curr_waypt_idx ⟨(0,0), [(10,0)]⟩ 10 : ℤ) =
      ⌊(10 : ℚ) / step_time ⟨(0,0), [(10,0)]⟩⌋ :=
  (C3_segment_interpolation ⟨(0,0), [(10,0)]⟩ 10 (by norm_num)
    (by norm_num [final_T])).1

/-- Claim C10: on the interpolation branch (`0 ≤ t < final_T`) the segment
index is the floor of `t / step_time`, it is at most the number of goals,
every waypoint and boundary-table access is in bounds, the interpolation
divisor equals the positive `step_time`, and the branch produces a value
(no out-of-range access, no division by zero). -/
theorem C10_interpolation_total (sch : Schedule) (t : ℚ) (h0 : 0 ≤ t) (h1 : t < final_T) :
    (curr_waypt_idx sch t : ℤ) = ⌊t / step_time sch⌋ ∧
    curr_waypt_idx sch t ≤ sch.real_goals.length ∧
    curr_waypt_idx sch t + 1 < (waypts sch).length ∧
    curr_waypt_idx sch t + 1 < (waypt_times sch).length ∧
    (∀ ti tf, (waypt_times sch)[curr_waypt_idx sch t]? = some ti →
      (waypt_times sch)[curr_waypt_idx sch t + 1]? = some tf →
      tf - ti = step_time sch) ∧
    0 < step_time sch ∧
    (positionAt sch t).isSome := by
  have hk := curr_waypt_idx_le sch t h1
  refine ⟨curr_waypt_idx_cast sch t h0, hk, by rw [length_waypts]; omega,
    by rw [length_waypt_times]; omega, ?_, step_time_pos sch, ?_⟩
  · intro ti tf hti htf
    rw [waypt_times_getElem sch _ (by omega)] at hti
    rw [waypt_times_getElem sch _ (by omega)] at htf
    have h1' : ti = (curr_waypt_idx sch t : ℚ) * step_time sch := (Option.some_inj.mp hti).symm
    have h2' : tf = ((curr_waypt_idx sch t + 1 : ℕ) : ℚ) * step_time sch :=
      (Option.some_inj.mp htf).symm
    subst h1'; subst h2'
    push_cast
    ring
  · obtain ⟨p0, hp0⟩ : ∃ p0, (waypts sch)[curr_waypt_idx sch t]? = some p0 :=
      ⟨_, List.getElem?_eq_getElem (by rw [length_waypts]; omega)⟩
    obtain ⟨p1, hp1⟩ : ∃ p1, (waypts sch)[curr_waypt_idx sch t + 1]? = some p1 :=
      ⟨_, List.getElem?_eq_getElem (by rw [length_waypts]; omega)⟩
    rw [positionAt_of_lt _ _ (not_le.mpr h1) hp0 hp1
      (waypt_times_getElem sch _ (by omega)) (waypt_times_getElem sch _ (by omega))]
    rfl

/-- Witness for C10 at the one-goal scenario, elapsed time 45. -/
theorem C10_witness :
    (positionAt ⟨(0,0), [(10,0)]⟩ 45).isSome :=
  (C10_interpolation_total ⟨(0,0), [(10,0)]⟩ 45 (by norm_num)
    (by norm_num [final_T])).2.2.2.2.2.2

lemma positionAt_eval (sch : Schedule) (t : ℚ) (k : ℕ) (h1 : ¬ final_T ≤ t)
    (hk : curr_waypt_idx sch t = k)
    {p0 p1 : ℚ × ℚ} {ti tf : ℚ}
    (hp0 : (waypts sch)[k]? = some p0) (hp1 : (waypts sch)[k+1]? = some p1)
    (hti : (waypt_times sch)[k]? = some ti) (htf : (waypt_times sch)[k+1]? = some tf) :
    positionAt sch t = some ((p1.1 - p0.1) * ((t - ti) / (tf - ti)) + p0.1,
      (p1.2 - p0.2) * ((t - ti) / (tf - ti)) + p0.2) := by
  subst hk
  exact positionAt_of_lt sch t h1 hp0 hp1 hti htf

lemma sch1_step : step_time ⟨(0,0), [(10,0)]⟩ = 30 := by
  norm_num [step_time, step_time_of, final_T]

lemma sch1_waypt_times : waypt_times ⟨(0,0), [(10,0)]⟩ = [0, 30, 60] := by
  rw [waypt_times]
  simp [waypt_times_of, List.range_succ, step_time_of, final_T]
  norm_num

lemma sch1_pos10 : positionAt ⟨(0,0), [(10,0)]⟩ 10 = some (10/3, 0) := by
  have hk : curr_waypt_idx ⟨(0,0), [(10,0)]⟩ 10 = 0 := by
    unfold curr_waypt_idx
    rw [sch1_step]
    have h : ⌊(10:ℚ)/30⌋ = 0 := by
      rw [Int.floor_eq_zero_iff]
      constructor <;> norm_num
    rw [h]
    rfl
  have hp0 : (waypts ⟨(0,0), [(10,0)]⟩)[0]? = some ((0,0) : ℚ × ℚ) := by simp [waypts]
  have hp1 : (waypts ⟨(0,0), [(10,0)]⟩)[0+1]? = some ((10,0) : ℚ × ℚ) := by simp [waypts]
  have hti : (waypt_times ⟨(0,0), [(10,0)]⟩)[0]? = some (0 : ℚ) := by
    rw [sch1_waypt_times]; rfl
  have htf : (waypt_times ⟨(0,0), [(10,0)]⟩)[0+1]? = some (30 : ℚ) := by
    rw [sch1_waypt_times]; rfl
  rw [positionAt_eval ⟨(0,0), [(10,0)]⟩ 10 0 (by norm_num [final_T]) hk hp0 hp1 hti htf]
  norm_num

lemma sch1_pos30 : positionAt ⟨(0,0), [(10,0)]⟩ 30 = some (10, 0) := by
  have hk : curr_waypt_idx ⟨(0,0), [(10,0)]⟩ 30 = 1 := by
    unfold curr_waypt_idx
    rw [sch1_step]
    have h : (30:ℚ)/30 = 1 := by norm_num
    rw [h, Int.floor_one]
    rfl
  have hp0 : (waypts ⟨(0,0), [(10,0)]⟩)[1]? = some ((10,0) : ℚ × ℚ) := by simp [waypts]
  have hp1 : (waypts ⟨(0,0), [(10,0)]⟩)[1+1]? = some ((0,0) : ℚ × ℚ) := by simp [waypts]
  have hti : (waypt_times ⟨(0,0), [(10,0)]⟩)[1]? = some (30 : ℚ) := by
    rw [sch1_waypt_times]; rfl
  have htf : (waypt_times ⟨(0,0), [(10,0)]⟩)[1+1]? = some (60 : ℚ) := by
    rw [sch1_waypt_times]; rfl
  rw [positionAt_eval ⟨(0,0), [(10,0)]⟩ 30 1 (by norm_num [final_T]) hk hp0 hp1 hti htf]
  norm_num

lemma sch1_pos60 : positionAt ⟨(0,0), [(10,0)]⟩ 60 = some (0, 0) := by
  simp only [positionAt]
  rw [if_pos (by norm_num [final_T])]

/-- Counterexample to claim C4 as stated: with one goal the boundary
table has three entries `[0, 30, 60]` (not `[0, 20, 40, 60]`), and the
positions at times 10 and 30 are not `(5, 0)`. -/
theorem C4_counterexample :
    waypt_times ⟨(0,0), [(10,0)]⟩ ≠ [0, 20, 40, 60] ∧
    positionAt ⟨(0,0), [(10,0)]⟩ 10 ≠ some (5, 0) ∧
    positionAt ⟨(0,0), [(10,0)]⟩ 30 ≠ some (5, 0) := by
  refine ⟨?_, ?_, ?_⟩
  · rw [sch1_waypt_times]
    intro h
    have hlen := congrArg List.length h
    simp at hlen
  · rw [sch1_pos10]
    intro h
    have h2 := Option.some_inj.mp h
    rw [Prod.mk.injEq] at h2
    norm_num at h2
  · rw [sch1_pos30]
    intro h
    have h2 := Option.some_inj.mp h
    rw [Prod.mk.injEq] at h2
    norm_num at h2

/-- Claim C4 amended: with start (0,0), one goal (10,0) and the
hard-coded duration 60, the waypoint sequence is
`[(0,0), (10,0), (0,0)]`, the boundary table is `[0, 30, 60]`
(step 60/2 = 30), and the positions are `(10/3, 0)` at time 10
(one third of the way out), `(10, 0)` at time 30 (the goal), and
`(0, 0)` at time 60. -/
theorem C4_amended_scenario :
    waypts ⟨(0,0), [(10,0)]⟩ = [(0,0), (10,0), (0,0)] ∧
    waypt_times ⟨(0,0), [(10,0)]⟩ = [0, 30, 60] ∧
    positionAt ⟨(0,0), [(10,0)]⟩ 10 = some (10/3, 0) ∧
    positionAt ⟨(0,0), [(10,0)]⟩ 30 = some (10, 0) ∧
    positionAt ⟨(0,0), [(10,0)]⟩ 60 = some (0, 0) :=
  ⟨by simp [waypts], sch1_waypt_times, sch1_pos10, sch1_pos30, sch1_pos60⟩

/-- Claim C7: the target position is a pure function of the schedule and
the elapsed time: `update_pose` produces the same `human_pose` from any
two starting states, and that `human_pose` is exactly the `target_pos`
computation. -/
theorem C7_position_pure (sch : Schedule) (t : ℚ) (s₁ s₂ : HState) :
    (update_pose sch s₁ t).map HState.human_pose =
      (update_pose sch s₂ t).map HState.human_pose ∧
    ∀ r, update_pose sch s₁ t = some r → r.human_pose = positionAt sch t := by
  constructor
  · unfold update_pose
    cases positionAt sch t <;> rfl
  · intro r hr
    unfold update_pose at hr
    cases h : positionAt sch t
    · rw [h] at hr
      simp at hr
    · rw [h] at hr
      injection hr with hr
      subst hr
      rfl

/-- Witness for C7: two different starting states give the same published
position in the one-goal scenario at time 10. -/
theorem C7_witness :
    (update_pose ⟨(0,0), [(10,0)]⟩ ⟨(1,2), none⟩ 10).map HState.human_pose =
      (update_pose ⟨(0,0), [(10,0)]⟩ ⟨(3,4), some (7,8)⟩ 10).map HState.human_pose :=
  (C7_position_pure ⟨(0,0), [(10,0)]⟩ 10 ⟨(1,2), none⟩ ⟨(3,4), some (7,8)⟩).1

lemma sch1_update10 :
    update_pose ⟨(0,0), [(10,0)]⟩ (initState ⟨(0,0), [(10,0)]⟩) 10 =
      some ⟨(10/3, 0), some (10/3, 0)⟩ := by
  unfold update_pose initState
  rw [sch1_pos10]
  norm_num [final_T]

lemma sch1_update60 :
    update_pose ⟨(0,0), [(10,0)]⟩ ⟨(10/3, 0), some (10/3, 0)⟩ 60 =
      some ⟨(10/3, 0), some (0, 0)⟩ := by
  unfold update_pose
  rw [sch1_pos60]
  norm_num [final_T]

/-- Counterexample to claim C9 as stated: in the one-goal scenario, after
a tick at time 10 set `prev_pose = (10/3, 0)`, the call at elapsed time
60 computes position `(0, 0)` (it becomes `human_pose`) yet leaves
`prev_pose` at `(10/3, 0)`: the assignment on line 176 sits inside the
`else` branch, so a call with `elapsed_time ≥ total_duration` does not
update the last-known-position value. -/
theorem C9_counterexample :
    update_pose ⟨(0,0), [(10,0)]⟩ (initState ⟨(0,0), [(10,0)]⟩) 10 =
      some ⟨(10/3, 0), some (10/3, 0)⟩ ∧
    update_pose ⟨(0,0), [(10,0)]⟩ ⟨(10/3, 0), some (10/3, 0)⟩ 60 =
      some ⟨(10/3, 0), some (0, 0)⟩ ∧
    ((10/3, 0) : ℚ × ℚ) ≠ (0, 0) := by
  refine ⟨sch1_update10, sch1_update60, ?_⟩
  intro h
  rw [Prod.mk.injEq] at h
  norm_num at h

/-- Claim C9 amended: `prev_pose` starts at the start point; a call with
`elapsed_time < total_duration` updates it to the computed position, and
a call with `elapsed_time ≥ total_duration` leaves it unchanged (while
`human_pose` is still rebuilt from the computed position in both cases). -/
theorem C9_prev_pose_update (sch : Schedule) (s : HState) (t : ℚ) (p : ℚ × ℚ) (r : HState)
    (hp : positionAt sch t = some p)
    (hr : update_pose sch s t = some r) :
    r.human_pose = some p ∧
    (t < final_T → r.prev_pose = p) ∧
    (final_T ≤ t → r.prev_pose = s.prev_pose) ∧
    (initState sch).prev_pose = sch.real_start := by
  unfold update_pose at hr
  rw [hp] at hr
  injection hr with hr
  subst hr
  refine ⟨rfl, ?_, ?_, rfl⟩
  · intro hlt
    simp only
    rw [if_neg (not_le.mpr hlt)]
  · intro hge
    simp only
    rw [if_pos hge]

/-- Witness for the amended C9 in the one-goal scenario at time 10. -/
theorem C9_witness :
    (HState.mk (10/3, 0) (some (10/3, 0))).prev_pose = ((10/3, 0) : ℚ × ℚ) :=
  (C9_prev_pose_update ⟨(0,0), [(10,0)]⟩ (initState ⟨(0,0), [(10,0)]⟩) 10 (10/3, 0)
    ⟨(10/3, 0), some (10/3, 0)⟩ sch1_pos10 sch1_update10).2.1 (by norm_num [final_T])

lemma sch0_pos (s : ℚ × ℚ) (t : ℚ) (_ht : 0 ≤ t) :
    positionAt ⟨s, []⟩ t = some s := by
  by_cases hT : final_T ≤ t
  · simp only [positionAt]
    rw [if_pos hT]
  · have hk : curr_waypt_idx ⟨s, []⟩ t = 0 := by
      have h := curr_waypt_idx_le ⟨s, []⟩ t (not_le.mp hT)
      simpa using h
    have hp0 : (waypts ⟨s, []⟩)[0]? = some s := by simp [waypts]
    have hp1 : (waypts ⟨s, []⟩)[0+1]? = some s := by simp [waypts]
    have hti : (waypt_times ⟨s, []⟩)[0]? = some (((0:ℕ) : ℚ) * step_time ⟨s, []⟩) :=
      waypt_times_getElem _ 0 (by omega)
    have htf : (waypt_times ⟨s, []⟩)[0+1]? = some (((1:ℕ) : ℚ) * step_time ⟨s, []⟩) :=
      waypt_times_getElem _ 1 (by omega)
    rw [positionAt_eval ⟨s, []⟩ t 0 hT hk hp0 hp1 hti htf]
    simp

/-- Counterexample to claim C8 as stated: `load_parameters` performs no
validation and the code has no `ConfigurationError`.  With an empty goal
list the construction succeeds (`step_time = 60`, boundary table
`[0, 60]`) and the tick loop runs `update_pose` on the resulting
degenerate start-to-start schedule without failure. -/
theorem C8_counterexample :
    step_time ⟨(0,0), ([] : List (ℚ × ℚ))⟩ = 60 ∧
    waypt_times ⟨(0,0), ([] : List (ℚ × ℚ))⟩ = [0, 60] ∧
    update_pose ⟨(0,0), []⟩ (initState ⟨(0,0), []⟩) 30 = some ⟨(0,0), some (0,0)⟩ := by
  refine ⟨by norm_num [step_time, step_time_of, final_T], ?_, ?_⟩
  · rw [waypt_times]
    simp [waypt_times_of, List.range_succ, step_time_of, final_T]
  · unfold update_pose initState
    rw [sch0_pos (0,0) 30 (by norm_num)]
    norm_num [final_T]

/-- Claim C8 amended: construction never fails.  The total duration is
the hard-coded constant 60 (positive), an empty goal list is accepted and
degenerates to a single start-to-start segment, and the target position
then stays at the start waypoint for every nonnegative elapsed time. -/
theorem C8_no_configuration_failure :
    final_T = 60 ∧ (0:ℚ) < final_T ∧
    ∀ (s : ℚ × ℚ) (t : ℚ), 0 ≤ t → positionAt ⟨s, []⟩ t = some s :=
  ⟨rfl, by norm_num [final_T], fun s t ht => sch0_pos s t ht⟩

/-- Witness for the amended C8: the degenerate empty-goal schedule keeps
the agent at the start at time 45. -/
theorem C8_witness : positionAt ⟨(5,7), []⟩ 45 = some (5,7) :=
  C8_no_configuration_failure.2.2 (5,7) 45 (by norm_num)

/-- Claim C5: for every goal count `n` and every positive total duration
`T`, the boundary table built the way line 76 builds it has exactly `n+2`
entries, entry `i` equals `i * (T / (n+1))`, it is strictly increasing,
its first entry is `0` and its last entry is `T` (exact rational
arithmetic; the code always instantiates `T` with the constant 60). -/
theorem C5_boundary_table (T : ℚ) (n : ℕ) (hT : 0 < T) :
    (waypt_times_of T n).length = n + 2 ∧
    (∀ i, i < n + 2 → (waypt_times_of T n)[i]? = some ((i : ℚ) * (T / ((n : ℚ) + 1)))) ∧
    (waypt_times_of T n).Pairwise (· < ·) ∧
    (waypt_times_of T n)[0]? = some 0 ∧
    (waypt_times_of T n)[n+1]? = some T := by
  have hs := step_time_of_pos T n hT
  refine ⟨length_waypt_times_of T n, ?_, ?_, ?_, ?_⟩
  · intro i hi
    exact waypt_times_of_getElem T n i hi
  · rw [waypt_times_of, List.pairwise_map]
    refine (List.pairwise_lt_range _).imp ?_
    intro a b hab
    exact mul_lt_mul_of_pos_right (by exact_mod_cast hab) hs
  · rw [waypt_times_of_getElem T n 0 (by omega)]
    norm_num
  · rw [waypt_times_of_getElem T n (n+1) (by omega)]
    congr 1
    rw [step_time_of]
    push_cast
    rw [mul_comm, div_mul_cancel₀ _ (by positivity : ((n : ℚ) + 1) ≠ 0)]

/-- Witness for C5 at duration 60 with one goal: the table is strictly
increasing and ends at 60. -/
theorem C5_witness :
    (waypt_times_of 60 1).Pairwise (· < ·) ∧ (waypt_times_of 60 1)[2]? = some 60 :=
  ⟨(C5_boundary_table 60 1 (by norm_num)).2.2.1,
   (C5_boundary_table 60 1 (by norm_num)).2.2.2.2⟩

lemma abs_pyRound_sub (q : ℚ) : |(pyRound q : ℚ) - q| ≤ 1/2 := by
  unfold pyRound
  split
  · rw [abs_le]
    constructor <;>
      linarith [Int.floor_le (q + 1/2), Int.lt_floor_add_one (q + 1/2)]
  · rw [abs_le]
    constructor <;>
      linarith [Int.le_ceil (q - 1/2), Int.ceil_lt_add_one (q - 1/2)]

lemma pyRound_intCast (z : ℤ) : pyRound (z : ℚ) = z := by
  have hfl : ⌊(1/2 : ℚ)⌋ = 0 := by
    rw [Int.floor_eq_zero_iff]
    constructor <;> norm_num
  have hcl : ⌈(-(1/2) : ℚ)⌉ = 0 := by
    rw [Int.ceil_eq_zero_iff]
    constructor <;> norm_num
  unfold pyRound
  split
  · rw [show (z : ℚ) + 1/2 = 1/2 + z by ring, Int.floor_add_int, hfl, zero_add]
  · rw [show (z : ℚ) - 1/2 = -(1/2) + z by ring, Int.ceil_add_int, hcl, zero_add]

lemma pyRound_eq_self (q : ℚ) : (pyRound q : ℚ) = q ↔ ∃ z : ℤ, (z : ℚ) = q := by
  constructor
  · intro h
    exact ⟨pyRound q, h⟩
  · rintro ⟨z, rfl⟩
    rw [pyRound_intCast]

/-- Claim C6: coordinate round-trip.  Concrete part: on the 10x10 grid
over the real box (0,0)-(9,9) (resolution 1), the sim point (3,4) maps to
real (3,5) and back to (3,4).  General part: for positive per-axis
resolutions, `sim_to_real(real_to_sim(p))` recovers `p` within half a
cell of resolution on each axis, and the round trip is exact precisely
when `p` lies on a cell center (an integer sim coordinate). -/
theorem C6_coordinate_round_trip :
    (real_to_sim_coord ⟨(0,0), (9,9), 10, 10⟩
        (sim_to_real_coord ⟨(0,0), (9,9), 10, 10⟩ (3,4)) = (3,4)) ∧
    ∀ (m : Mapper) (p : ℚ × ℚ), 0 < res_x m → 0 < res_y m →
      |(sim_to_real_coord m (real_to_sim_coord m p)).1 - p.1| ≤ res_x m / 2 ∧
      |(sim_to_real_coord m (real_to_sim_coord m p)).2 - p.2| ≤ res_y m / 2 ∧
      (sim_to_real_coord m (real_to_sim_coord m p) = p ↔
        ∃ c : ℤ × ℤ, p = sim_to_real_coord m c) := by
  constructor
  · have hrx : res_x ⟨(0,0), (9,9), 10, 10⟩ = 1 := by norm_num [res_x]
    have hry : res_y ⟨(0,0), (9,9), 10, 10⟩ = 1 := by norm_num [res_y]
    have e1 : sim_to_real_coord ⟨(0,0), (9,9), 10, 10⟩ (3,4) = (3, 5) := by
      rw [sim_to_real_coord, hrx, hry]
      norm_num
    rw [e1, real_to_sim_coord, hrx, hry]
    rw [Prod.mk.injEq]
    constructor
    · rw [show ((3,5).1 - (⟨(0,0), (9,9), 10, 10⟩ : Mapper).real_lower.1) / 1 = ((3:ℤ) : ℚ)
        by norm_num, pyRound_intCast]
    · rw [show ((⟨(0,0), (9,9), 10, 10⟩ : Mapper).real_upper.2 - ((3:ℚ),(5:ℚ)).2) / 1 = ((4:ℤ) : ℚ)
        by norm_num, pyRound_intCast]
  · intro m p hx hy
    have hxne : res_x m ≠ 0 := ne_of_gt hx
    have hyne : res_y m ≠ 0 := ne_of_gt hy
    have hux : (p.1 - m.real_lower.1) / res_x m * res_x m = p.1 - m.real_lower.1 :=
      div_mul_cancel₀ _ hxne
    have hvy : (m.real_upper.2 - p.2) / res_y m * res_y m = m.real_upper.2 - p.2 :=
      div_mul_cancel₀ _ hyne
    refine ⟨?_, ?_, ?_⟩
    · show |(pyRound ((p.1 - m.real_lower.1) / res_x m) : ℚ) * res_x m + m.real_lower.1 - p.1|
        ≤ res_x m / 2
      have hd : (pyRound ((p.1 - m.real_lower.1) / res_x m) : ℚ) * res_x m + m.real_lower.1 - p.1
          = ((pyRound ((p.1 - m.real_lower.1) / res_x m) : ℚ)
              - (p.1 - m.real_lower.1) / res_x m) * res_x m := by
        rw [sub_mul, hux]
        ring
      rw [hd, abs_mul, abs_of_pos hx]
      calc |(pyRound ((p.1 - m.real_lower.1) / res_x m) : ℚ)
              - (p.1 - m.real_lower.1) / res_x m| * res_x m
          ≤ 1/2 * res_x m :=
            mul_le_mul_of_nonneg_right (abs_pyRound_sub _) (le_of_lt hx)
        _ = res_x m / 2 := by ring
    · show |m.real_upper.2 - (pyRound ((m.real_upper.2 - p.2) / res_y m) : ℚ) * res_y m - p.2|
        ≤ res_y m / 2
      have hd : m.real_upper.2 - (pyRound ((m.real_upper.2 - p.2) / res_y m) : ℚ) * res_y m - p.2
          = ((m.real_upper.2 - p.2) / res_y m
              - (pyRound ((m.real_upper.2 - p.2) / res_y m) : ℚ)) * res_y m := by
        rw [sub_mul, hvy]
        ring
      rw [hd, abs_mul, abs_of_pos hy, abs_sub_comm]
      calc |(pyRound ((m.real_upper.2 - p.2) / res_y m) : ℚ)
              - (m.real_upper.2 - p.2) / res_y m| * res_y m
          ≤ 1/2 * res_y m :=
            mul_le_mul_of_nonneg_right (abs_pyRound_sub _) (le_of_lt hy)
        _ = res_y m / 2 := by ring
    · constructor
      · intro h
        exact ⟨real_to_sim_coord m p, h.symm⟩
      · rintro ⟨c, rfl⟩
        have h1 : real_to_sim_coord m (sim_to_real_coord m c) = c := by
          rw [real_to_sim_coord, sim_to_real_coord]
          have e1 : ((c.1 : ℚ) * res_x m + m.real_lower.1 - m.real_lower.1) / res_x m
              = ((c.1 : ℤ) : ℚ) := by
            rw [add_sub_cancel_right, mul_div_cancel_right₀ _ hxne]
          have e2 : (m.real_upper.2 - (m.real_upper.2 - (c.2 : ℚ) * res_y m)) / res_y m
              = ((c.2 : ℤ) : ℚ) := by
            rw [sub_sub_cancel, mul_div_cancel_right₀ _ hyne]
          rw [Prod.mk.injEq]
          exact ⟨by rw [e1, pyRound_intCast], by rw [e2, pyRound_intCast]⟩
        rw [h1]

/-- Witness for C6 at a concrete mapper and an off-center point: the
round-trip error at x = 1/2 is within half a cell. -/
theorem C6_witness :
    |(sim_to_real_coord ⟨(0,0), (9,9), 10, 10⟩
        (real_to_sim_coord ⟨(0,0), (9,9), 10, 10⟩ (1/2, 0))).1 - (1/2 : ℚ)|
      ≤ res_x ⟨(0,0), (9,9), 10, 10⟩ / 2 :=
  (C6_coordinate_round_trip.2 ⟨(0,0), (9,9), 10, 10⟩ (1/2, 0)
    (by norm_num [res_x]) (by norm_num [res_y])).1
